import Mathlib

/-!
Shallow embedding of the Mi Band heart-rate client (band.c / band.h).

Byte buffers are `List Nat` whose entries are byte values; the C program's
`uint8_t` fields are `Nat` values reduced modulo 256 exactly where the C
performs a narrowing store.  The opaque cryptographic primitives
(`ecdh_shared_secret` from tiny-ECDH and OpenSSL's `AES_cbc_encrypt`) are
parameters of the model, gathered in the `Crypto` structure.
-/

namespace MiBand

/-- Read byte `i` of a buffer; out-of-range reads yield 0 (the C code only
performs in-range reads on the frames the claims quantify over). -/
def valAt (value : List Nat) (i : Nat) : Nat := value.getD i 0

/-- Opaque cryptographic primitives, as declared in the spec's external
interface: `ecdh_shared_secret(priv, pub, out)` returns a status code
(`ecdhRet`) and fills the secret buffer (`ecdhOut`); `AES_cbc_encrypt`
(`aesCbc`) encrypts a 16-byte block with a key and an IV. -/
structure Crypto where
  ecdhRet : List Nat → List Nat → Nat
  ecdhOut : List Nat → List Nat → List Nat
  aesCbc : List Nat → List Nat → List Nat → List Nat

/-- Model of `encrypt_aes_cbc` in band.c: it always passes an all-zero
16-byte initialization vector to the block-cipher primitive. -/
def encrypt_aes_cbc (c : Crypto) (key input : List Nat) : List Nat :=
  c.aesCbc key (List.replicate 16 0) input

/-- The per-link mutable state of the `BLEDevice` structure (band.h) that the
protocol logic reads and writes: `lastSequenceNumber`, `pointer`,
`expectedBytes` and `handle` are `uint8_t` in the source, the key buffers are
byte arrays. -/
structure BLEDevice where
  handle : Nat
  lastSequenceNumber : Nat
  pointer : Nat
  expectedBytes : Nat
  authKey : List Nat
  privateKey : List Nat
  secretKey : List Nat
  deriving DecidableEq

/-- Observable effects of one call of `characteristic_value_updated` on the
chunked-transfer-read characteristic: which log lines were printed
(`firstPart`, `anomaly`, `authenticated`, `unhandled`, `cryptoError`) and,
when the byte counter matches `expectedBytes`, the data the completion block
consumed (`completed` is the frame region past the header, `nonce` and
`remotePub` the 16 and 48 bytes `remoteRandom`/`remotePublic` point at) and
the challenge write it issued (`challenge` = handle argument and command
bytes passed to `write_chunked_value`). -/
structure DecodeEvent where
  firstPart : Bool := false
  anomaly : Bool := false
  authenticated : Bool := false
  unhandled : Bool := false
  cryptoError : Bool := false
  completed : Option (List Nat) := none
  nonce : Option (List Nat) := none
  remotePub : Option (List Nat) := none
  challenge : Option (Nat × List Nat) := none
  deriving DecidableEq

/-- Chunk-splitting loop of `write_chunked_value` (band.c).  The C `while`
loop is embedded with a fuel argument; since every iteration consumes at
least one payload byte whenever the chunk capacity is positive, fuel equal to
the initial `remaining` is enough (see `write_chunked_value`).  Each produced
chunk is the byte array handed to `gattlib_write_char_by_uuid`. -/
def chunkAux (mMTU type handle : Nat) (data : List Nat) :
    Nat → Nat → Nat → List (List Nat)
  | 0, _, _ => []
  | fuel + 1, remaining, count =>
    if remaining = 0 then []
    else
      let header_size := if count = 0 then 11 else 5
      let maxChunk := mMTU - 3 - header_size
      let copybytes := min remaining maxChunk
      let flags := (if count = 0 then 1 else 0) |||
        (if remaining ≤ maxChunk then 6 else 0)
      let ext : List Nat :=
        if count = 0 then
          [data.length % 256, data.length / 256 % 256,
           data.length / 65536 % 256, data.length / 16777216 % 256,
           type % 256, type % 256 / 256 % 256]
        else []
      ([0x03, flags, 0, handle % 256, count % 256] ++ ext ++
        (data.drop (data.length - remaining)).take copybytes) ::
      chunkAux mMTU type handle data fuel (remaining - copybytes) (count + 1)

/-- Model of `write_chunked_value` (band.c): split `data` into framed chunks.
The source fixes `mMTU = 23`; the embedding exposes it as a parameter so the
spec's quantification over the maximum frame payload (`mMTU - 14` for the
first frame, `mMTU - 8` for continuations) can be stated. -/
def write_chunked_value (mMTU type handle : Nat) (data : List Nat) :
    List (List Nat) :=
  chunkAux mMTU type handle data data.length data.length 0

/-- Model of the chunked-transfer-read branch of
`characteristic_value_updated` (band.c): one notification frame updates the
reassembly counters and, when `pointer == expectedBytes`, runs the
key-derivation / challenge-write block. -/
def decodeStep (c : Crypto) (dev : BLEDevice) (value : List Nat) :
    BLEDevice × DecodeEvent :=
  if 1 < value.length ∧ valAt value 0 = 0x03 then
    let seq := valAt value 4
    let firstQ := decide (seq = 0 ∧ valAt value 9 = 0x82 ∧ valAt value 10 = 0 ∧
      valAt value 11 = 0x10 ∧ valAt value 12 = 0x04 ∧ valAt value 13 = 0x01)
    let authQ := decide (seq = 0 ∧ valAt value 9 = 0x82 ∧ valAt value 10 = 0 ∧
      valAt value 11 = 0x10 ∧ valAt value 12 = 0x05 ∧ valAt value 13 = 0x01)
    let anomalyQ := decide (0 < seq ∧ seq ≠ dev.lastSequenceNumber + 1)
    let unhandledQ := decide (seq = 0) && !firstQ && !authQ
    let header_size := if firstQ then 14 else if 0 < seq then 5 else 0
    let pointer0 := if firstQ then 0 else dev.pointer
    let expected := if firstQ then (valAt value 5 + 253) % 256
      else dev.expectedBytes
    let bytes_to_copy := (value.length + 256 - header_size) % 256
    let pointer1 := (pointer0 + bytes_to_copy) % 256
    let dev1 : BLEDevice :=
      { dev with pointer := pointer1, lastSequenceNumber := seq,
                 expectedBytes := expected }
    let ev : DecodeEvent :=
      { firstPart := firstQ, anomaly := anomalyQ, authenticated := authQ,
        unhandled := unhandledQ }
    if pointer1 = expected then
      let remoteRandom := (value.drop header_size).take 16
      let remotePublic := (value.drop (header_size + 16)).take 48
      let ret := c.ecdhRet dev.privateKey remotePublic
      let secret := c.ecdhOut dev.privateKey remotePublic
      let sessionKey := (List.range 16).map fun i =>
        Nat.xor (valAt secret (i + 8)) (valAt dev.authKey i)
      let out1 := encrypt_aes_cbc c dev.authKey remoteRandom
      let out2 := encrypt_aes_cbc c sessionKey remoteRandom
      let command := 0x05 :: (out1 ++ out2)
      ({ dev1 with secretKey := secret },
       { ev with cryptoError := decide (ret ≠ 1),
                 completed := some (value.drop header_size),
                 nonce := some remoteRandom,
                 remotePub := some remotePublic,
                 challenge := some ((dev.handle + 1) % 256, command) })
    else (dev1, ev)
  else (dev, {})

/-- Feed a list of frames to `decodeStep` in order, collecting the events. -/
def decodeRun (c : Crypto) (dev : BLEDevice) (frames : List (List Nat)) :
    BLEDevice × List DecodeEvent :=
  frames.foldl (fun acc v =>
    let s := decodeStep c acc.1 v
    (s.1, acc.2 ++ [s.2])) (dev, [])

/-- The bodies of the messages that completed while feeding `frames`. -/
def completedBodies (c : Crypto) (dev : BLEDevice)
    (frames : List (List Nat)) : List (List Nat) :=
  (decodeRun c dev frames).2.filterMap (fun e => e.completed)

/-- Telemetry state of the heart-rate branch of
`characteristic_value_updated`: `hrCount` and the `value` column of
`hrHist`.  The capacity bookkeeping of the C buffer does not affect which
samples exist or the alert rule and is not modelled. -/
structure HRState where
  hrCount : Nat
  values : List Int
  deriving DecidableEq

/-- Arithmetic mean of a list of samples, as an exact rational. -/
def hr_mean (values : List Int) : ℚ := (values.sum : ℚ) / values.length

/-- Parse the heart-rate value from a notification: the C loop
`result = (result << 8) | value[i]` over the first two bytes. -/
def hrValue (value : List Nat) : Nat :=
  ((0 <<< 8) ||| valAt value 0) <<< 8 ||| valAt value 1

/-- Model of the heart-rate branch of `characteristic_value_updated`
(band.c, lines 503-565): append the sample, recompute the mean of all
recorded values (the C computes it in `double`; sums of 32-bit integer
samples and the final comparison are modelled in exact rational arithmetic)
and decide whether `send_alert` fires: `hrCount > 60 && result < mean - 10`. -/
def recordHR (s : HRState) (result : Int) : HRState × Bool :=
  let hrCount := s.hrCount + 1
  let values := s.values ++ [result]
  let mean : ℚ := (values.sum : ℚ) / hrCount
  (⟨hrCount, values⟩,
   decide (60 < hrCount) && decide ((result : ℚ) < mean - 10))

/-- Concrete crypto instance for witnesses: deterministic stand-ins for the
opaque primitives (a successful status code, a fixed secret buffer, a fixed
16-byte cipher block). -/
def cryptoTest : Crypto where
  ecdhRet := fun _ _ => 1
  ecdhOut := fun _ _ => List.range 48
  aesCbc := fun _ _ _ => List.range 16

/-- Concrete crypto instance whose shared-secret primitive reports failure
(`ecdh_shared_secret` returns 0, as tiny-ECDH does on a rejected public
key). -/
def cryptoFail : Crypto where
  ecdhRet := fun _ _ => 0
  ecdhOut := fun _ _ => List.replicate 48 0
  aesCbc := fun _ _ _ => List.range 16

/-- Device state as `ble_device_create` initializes it (all counters 0), with
a concrete 16-byte auth key and private key for witnesses. -/
def devInit : BLEDevice where
  handle := 0
  lastSequenceNumber := 0
  pointer := 0
  expectedBytes := 0
  authKey := List.range 16
  privateKey := List.range 24
  secretKey := List.replicate 48 0

/-- A complete remote key-exchange message delivered in a single frame:
header marker, flag byte 7, index 0, total_length 35, type 0x0082, the
3-byte signature 0x10 0x04 0x01, then 32 body bytes. -/
def frame35 : List Nat :=
  [0x03, 0x07, 0, 0, 0, 35, 0, 0, 0, 0x82, 0, 0x10, 0x04, 0x01] ++ List.range 32

/-- First frame of the same message split in two: it carries the signature
and the first 16 body bytes (all 0xAA). -/
def frameA : List Nat :=
  [0x03, 0x01, 0, 0, 0, 35, 0, 0, 0, 0x82, 0, 0x10, 0x04, 0x01] ++
    List.replicate 16 0xAA

/-- Second frame of the split message: index 1 and the final 16 body bytes
(all 0xBB). -/
def frameB : List Nat := [0x03, 0x06, 0, 0, 1] ++ List.replicate 16 0xBB

/-- Continuation frame with index 2 (a gap when the last accepted index was
0), carrying 16 payload bytes. -/
def frameGap : List Nat := [0x03, 0x06, 0, 0, 2] ++ List.replicate 16 0xCC

/-- Mid-reassembly state: 16 of 32 expected bytes received, last index 0. -/
def devMid : BLEDevice := { devInit with pointer := 16, expectedBytes := 32 }

/-- State with stale reassembly counters, used to exhibit that handling of a
new first frame does not depend on them. -/
def devStale : BLEDevice :=
  { devInit with pointer := 99, expectedBytes := 77, lastSequenceNumber := 5 }

/-- Evaluation of `decodeStep` on a frame matching the remote key-exchange
first-frame pattern (index 0, message type 0x0082, signature bytes
0x10 0x04 0x01 at offsets 11..13): the counters restart from zero,
`expectedBytes` is set from the low length byte minus 3 (modulo 256), and
when the counter matches, the completion block runs on this frame's bytes
past the 14-byte header. -/
theorem decodeStep_remoteData (c : Crypto) (dev : BLEDevice) (value : List Nat)
    (hlen : 1 < value.length) (h0 : valAt value 0 = 3) (h4 : valAt value 4 = 0)
    (h9 : valAt value 9 = 0x82) (h10 : valAt value 10 = 0)
    (h11 : valAt value 11 = 0x10) (h12 : valAt value 12 = 4)
    (h13 : valAt value 13 = 1) :
    decodeStep c dev value =
      (let expected := (valAt value 5 + 253) % 256
      let pointer1 := (value.length + 242) % 256
      let ev : DecodeEvent := { firstPart := true }
      if pointer1 = expected then
        let remotePublic := (value.drop 30).take 48
        let secret := c.ecdhOut dev.privateKey remotePublic
        let sessionKey := (List.range 16).map fun i =>
          Nat.xor (valAt secret (i + 8)) (valAt dev.authKey i)
        ({ dev with pointer := pointer1, lastSequenceNumber := 0,
                    expectedBytes := expected, secretKey := secret },
         { ev with
             cryptoError := decide (c.ecdhRet dev.privateKey remotePublic ≠ 1),
             completed := some (value.drop 14),
             nonce := some ((value.drop 14).take 16),
             remotePub := some remotePublic,
             challenge := some ((dev.handle + 1) % 256,
               0x05 :: (encrypt_aes_cbc c dev.authKey ((value.drop 14).take 16) ++
                        encrypt_aes_cbc c sessionKey ((value.drop 14).take 16))) })
      else
        ({ dev with pointer := pointer1, lastSequenceNumber := 0,
                    expectedBytes := expected }, ev)) := by
  have e1 : (0 + (value.length + 256 - 14) % 256) % 256 = (value.length + 242) % 256 := by
    omega
  have h30 : value.drop 30 = (value.drop 14).drop 16 := by
    rw [List.drop_drop]
  have e2 : (value.length + 256 - 14) % 256 = (value.length + 242) % 256 := by
    omega
  simp only [decodeStep, h0, h4, h9, h10, h11, h12, h13, hlen, e1, e2]
  norm_num [e2]

/-- Evaluation of `decodeStep` on a continuation frame (index greater than
0): a sequence gap is flagged as an anomaly only, the payload past the
5-byte header is counted, `expectedBytes` is untouched, and the message
completes exactly when the counter matches it. -/
theorem decodeStep_continuation (c : Crypto) (dev : BLEDevice) (value : List Nat)
    (hlen : 1 < value.length) (h0 : valAt value 0 = 3) (h4 : 0 < valAt value 4) :
    decodeStep c dev value =
      (let pointer1 := (dev.pointer + (value.length + 251) % 256) % 256
      let ev : DecodeEvent :=
        { anomaly := decide (valAt value 4 ≠ dev.lastSequenceNumber + 1) }
      if pointer1 = dev.expectedBytes then
        let remotePublic := (value.drop 21).take 48
        let secret := c.ecdhOut dev.privateKey remotePublic
        let sessionKey := (List.range 16).map fun i =>
          Nat.xor (valAt secret (i + 8)) (valAt dev.authKey i)
        ({ dev with pointer := pointer1,
                    lastSequenceNumber := valAt value 4, secretKey := secret },
         { ev with
             cryptoError := decide (c.ecdhRet dev.privateKey remotePublic ≠ 1),
             completed := some (value.drop 5),
             nonce := some ((value.drop 5).take 16),
             remotePub := some remotePublic,
             challenge := some ((dev.handle + 1) % 256,
               0x05 :: (encrypt_aes_cbc c dev.authKey ((value.drop 5).take 16) ++
                        encrypt_aes_cbc c sessionKey ((value.drop 5).take 16))) })
      else
        ({ dev with pointer := pointer1,
                    lastSequenceNumber := valAt value 4 }, ev)) := by
  have h4' : valAt value 4 ≠ 0 := by omega
  have e2 : (value.length + 256 - 5) % 256 = (value.length + 251) % 256 := by omega
  simp only [decodeStep, h0, hlen, h4, h4']
  norm_num [e2]

/-- The chunk loop emits nothing once `remaining` reaches zero. -/
theorem chunkAux_zero (mMTU type handle : Nat) (data : List Nat)
    (fuel count : Nat) : chunkAux mMTU type handle data fuel 0 count = [] := by
  cases fuel <;> simp [chunkAux]

/-- A nonempty payload that fits in the first chunk's capacity
(`mMTU - 14` bytes) is encoded as exactly one frame: 11-byte header with
flag byte 7 (first-frame bit 0 and last-frame bits 1-2), frame index 0,
little-endian total length and message type, then the whole payload. -/
theorem encode_single (mMTU type handle : Nat) (data : List Nat)
    (h15 : 15 ≤ mMTU) (h1 : 1 ≤ data.length) (hfit : data.length ≤ mMTU - 14) :
    write_chunked_value mMTU type handle data =
      [[0x03, 7, 0, handle % 256, 0, data.length % 256, data.length / 256 % 256,
        data.length / 65536 % 256, data.length / 16777216 % 256,
        type % 256, type % 256 / 256 % 256] ++ data] := by
  obtain ⟨Q, hQ⟩ : ∃ Q, data.length = Q + 1 := ⟨data.length - 1, by omega⟩
  have hle : Q + 1 ≤ mMTU - 3 - 11 := by omega
  have hmin : min (Q + 1) (mMTU - 3 - 11) = Q + 1 := by omega
  have htake : (data.drop 0).take (Q + 1) = data := by
    rw [List.drop_zero, ← hQ, List.take_length]
  show chunkAux mMTU type handle data data.length data.length 0 = _
  rw [hQ]
  simp only [chunkAux, Nat.succ_ne_zero, if_false, hmin]
  norm_num [hle, chunkAux_zero, hQ, htake]
  decide

/-- A continuation iteration whose remaining bytes fit in the continuation
capacity (`mMTU - 8` bytes) emits exactly one final frame: 5-byte header
with flag byte 6 (last-frame bits only) and the remaining payload slice. -/
theorem chunkAux_last (mMTU type handle : Nat) (data : List Nat)
    (fuel k count : Nat) (hk : 1 ≤ k) (hfit : k ≤ mMTU - 3 - 5)
    (hfuel : 1 ≤ fuel) (hcount : count ≠ 0) :
    chunkAux mMTU type handle data fuel k count =
      [[0x03, 6, 0, handle % 256, count % 256] ++
        (data.drop (data.length - k)).take k] := by
  obtain ⟨F, hF⟩ : ∃ F, fuel = F + 1 := ⟨fuel - 1, by omega⟩
  have hk' : k ≠ 0 := by omega
  have hmin : min k (mMTU - 3 - 5) = k := by omega
  subst hF
  simp only [chunkAux, hmin]
  norm_num [hcount, hk', hfit, chunkAux_zero]

/-- A payload that overflows the first chunk by `k` bytes, `k` at most the
continuation capacity `mMTU - 8`, is encoded as exactly two frames: frame 0
with flag byte 1 (first bit only) carrying `mMTU - 14` payload bytes, and a
final 5-byte-header frame with flag byte 6 carrying the remaining `k`. -/
theorem encode_two (mMTU type handle : Nat) (data : List Nat) (k : Nat)
    (h15 : 15 ≤ mMTU) (hlen : data.length = (mMTU - 14) + k)
    (hk : 1 ≤ k) (hkfit : k ≤ mMTU - 8) :
    write_chunked_value mMTU type handle data =
      [[0x03, 1, 0, handle % 256, 0, data.length % 256, data.length / 256 % 256,
        data.length / 65536 % 256, data.length / 16777216 % 256,
        type % 256, type % 256 / 256 % 256] ++ data.take (mMTU - 14),
       [0x03, 6, 0, handle % 256, 1] ++ data.drop (mMTU - 14)] := by
  obtain ⟨Q, hQ⟩ : ∃ Q, data.length = Q + 1 := ⟨data.length - 1, by omega⟩
  have hmin : min (Q + 1) (mMTU - 3 - 11) = mMTU - 14 := by omega
  have hnle : ¬(Q + 1 ≤ mMTU - 3 - 11) := by omega
  have harg : Q + 1 - (mMTU - 14) = k := by omega
  have hdk : Q + 1 - k = mMTU - 14 := by omega
  have hQ1 : 1 ≤ Q := by omega
  have htake2 : (data.drop (mMTU - 14)).take k = data.drop (mMTU - 14) := by
    apply List.take_of_length_le
    rw [List.length_drop]
    omega
  have hnle2 : ¬(Q + 1 ≤ mMTU - 14) := by omega
  show chunkAux mMTU type handle data data.length data.length 0 = _
  rw [hQ]
  simp only [chunkAux]
  norm_num [hmin, harg, hQ, hnle, hnle2]
  rw [chunkAux_last mMTU type handle data Q k 1 hk (by omega) hQ1 (by omega)]
  norm_num [hQ, hdk, htake2]

/-- Evaluation of `decodeStep` on a frame with index 0 that does not match
the remote key-exchange signature (the auth-accepted or unhandled cases):
`header_size` stays 0, so the whole frame length is counted, and the
counters are otherwise carried over. -/
theorem decodeStep_other (c : Crypto) (dev : BLEDevice) (value : List Nat)
    (hlen : 1 < value.length) (h0 : valAt value 0 = 3) (h4 : valAt value 4 = 0)
    (hns : ¬(valAt value 9 = 0x82 ∧ valAt value 10 = 0 ∧
      valAt value 11 = 0x10 ∧ valAt value 12 = 0x04 ∧ valAt value 13 = 0x01)) :
    decodeStep c dev value =
      (let pointer1 := (dev.pointer + value.length % 256) % 256
      let authQ := decide (valAt value 9 = 0x82 ∧ valAt value 10 = 0 ∧
        valAt value 11 = 0x10 ∧ valAt value 12 = 0x05 ∧ valAt value 13 = 0x01)
      let ev : DecodeEvent := { authenticated := authQ, unhandled := !authQ }
      if pointer1 = dev.expectedBytes then
        let remotePublic := (value.drop 16).take 48
        let secret := c.ecdhOut dev.privateKey remotePublic
        let sessionKey := (List.range 16).map fun i =>
          Nat.xor (valAt secret (i + 8)) (valAt dev.authKey i)
        ({ dev with pointer := pointer1, lastSequenceNumber := 0,
                    secretKey := secret },
         { ev with
             cryptoError := decide (c.ecdhRet dev.privateKey remotePublic ≠ 1),
             completed := some value,
             nonce := some (value.take 16),
             remotePub := some remotePublic,
             challenge := some ((dev.handle + 1) % 256,
               0x05 :: (encrypt_aes_cbc c dev.authKey (value.take 16) ++
                        encrypt_aes_cbc c sessionKey (value.take 16))) })
      else ({ dev with pointer := pointer1, lastSequenceNumber := 0 }, ev)) := by
  have e2 : (value.length + 256 - 0) % 256 = value.length % 256 := by omega
  simp only [decodeStep, h0, h4, hlen]
  norm_num [hns, e2]

/-- Whenever a step reports a completed message, the stored byte counter
equals the stored expected count afterwards: the reassembly state is not
cleared by completion. -/
theorem decode_completed_eq (c : Crypto) (dev : BLEDevice) (value : List Nat)
    (h : ((decodeStep c dev value).2.completed).isSome = true) :
    (decodeStep c dev value).1.pointer = (decodeStep c dev value).1.expectedBytes := by
  by_cases h1 : 1 < value.length ∧ valAt value 0 = 3
  · obtain ⟨hlen, h0⟩ := h1
    rcases Nat.eq_zero_or_pos (valAt value 4) with h4 | h4
    · by_cases hsig : (valAt value 9 = 0x82 ∧ valAt value 10 = 0 ∧
        valAt value 11 = 0x10 ∧ valAt value 12 = 0x04 ∧ valAt value 13 = 0x01)
      · obtain ⟨h9, h10, h11, h12, h13⟩ := hsig
        rw [decodeStep_remoteData c dev value hlen h0 h4 h9 h10 h11 h12 h13] at h ⊢
        by_cases hc : (value.length + 242) % 256 = (valAt value 5 + 253) % 256
        · rw [if_pos hc]
          exact hc
        · rw [if_neg hc] at h
          simp at h
      · rw [decodeStep_other c dev value hlen h0 h4 hsig] at h ⊢
        by_cases hc : (dev.pointer + value.length % 256) % 256 = dev.expectedBytes
        · rw [if_pos hc]
          exact hc
        · rw [if_neg hc] at h
          simp at h
    · rw [decodeStep_continuation c dev value hlen h0 h4] at h ⊢
      by_cases hc : (dev.pointer + (value.length + 251) % 256) % 256 = dev.expectedBytes
      · rw [if_pos hc]
        exact hc
      · rw [if_neg hc] at h
        simp at h
  · unfold decodeStep at h
    rw [if_neg h1] at h
    simp at h

/-- C5 counterexample: encoding a zero-length payload does not produce
exactly one frame; the chunk loop of `write_chunked_value` never runs, so it
produces none. -/
theorem C5_cex : ¬(write_chunked_value 23 0x82 0 []).length = 1 := by decide

/-- C5 (amended): Encode is a total function, and a zero-length payload
produces no frame at all (the `while (remaining > 0)` loop body never
executes). -/
theorem C5_encode_empty (mMTU type handle : Nat) :
    write_chunked_value mMTU type handle [] = [] := rfl

/-- C1 counterexample: feeding every frame Encode produces for the empty
payload (there are none) to Decode yields zero completed messages, not
exactly one. -/
theorem C1_cex :
    completedBodies cryptoTest devInit (write_chunked_value 23 0x82 0 []) = [] ∧
    ¬(completedBodies cryptoTest devInit
        (write_chunked_value 23 0x82 0 [])).length = 1 := by
  decide

/-- C1 (amended): for a payload of the remote key-exchange form (message
type with low byte 0x82, payload starting with the signature bytes
0x10 0x04 0x01) that fits into a single frame, feeding the frames produced
by Encode to Decode, from any prior state, completes exactly one message
whose consumed body is the payload after the 3 signature bytes; the decoder
returns no message type and does not handle other types or payloads. -/
theorem C1_roundtrip (mMTU type handle : Nat) (rest : List Nat) (c : Crypto)
    (dev : BLEDevice) (h15 : 15 ≤ mMTU) (htype : type % 256 = 0x82)
    (hfit : rest.length + 3 ≤ mMTU - 14) :
    completedBodies c dev
      (write_chunked_value mMTU type handle (0x10 :: 0x04 :: 0x01 :: rest)) =
      [rest] := by
  rw [encode_single mMTU type handle _ h15 (by simp)
    (by simp only [List.length_cons]; omega)]
  simp only [completedBodies, decodeRun, List.foldl_cons, List.foldl_nil]
  rw [decodeStep_remoteData c dev _ (by simp) (by simp [valAt]) (by simp [valAt])
    (by simp [valAt, htype]) (by simp [valAt, htype]) (by simp [valAt])
    (by simp [valAt]) (by simp [valAt])]
  simp only []
  split
  next hcomp => simp [valAt]
  next hcomp => simp [valAt] at hcomp

/-- C1 witness: a concrete 7-byte payload of that form round-trips to its
4 body bytes. -/
theorem C1_witness :
    completedBodies cryptoTest devInit
      (write_chunked_value 23 0x82 0 (0x10 :: 0x04 :: 0x01 :: List.range 4)) =
      [List.range 4] :=
  C1_roundtrip 23 0x82 0 (List.range 4) cryptoTest devInit (by decide) (by decide)
    (by decide)

/-- C2 counterexample: for the two-frame split `frameA`/`frameB` of a
35-byte remote key-exchange message, the nonce the handshake consumes on
completion is the final frame's 16 payload bytes (0xBB), not the first 16
bytes of the reassembled body (0xAA...), because the code reads
`value + header_size` of the frame that completes the count and keeps no
accumulation buffer. -/
theorem C2_cex :
    (decodeRun cryptoTest devInit [frameA, frameB]).2.map (fun e => e.nonce) =
      [none, some (List.replicate 16 0xBB)] ∧
    ¬some (List.replicate 16 0xBB) =
      some ((List.replicate 16 0xAA ++ List.replicate 16 0xBB).take 16) := by
  decide

/-- C2 (amended): when the remote key-exchange message completes within its
first frame, the consumed nonce and public key are the first 16 bytes and
the following 48 bytes of that frame's body (the bytes past the 14-byte
header); for a multi-frame split they are read from the final frame
instead. -/
theorem C2_single_frame_body (c : Crypto) (dev : BLEDevice) (value : List Nat)
    (hlen : 1 < value.length) (h0 : valAt value 0 = 3) (h4 : valAt value 4 = 0)
    (h9 : valAt value 9 = 0x82) (h10 : valAt value 10 = 0)
    (h11 : valAt value 11 = 0x10) (h12 : valAt value 12 = 4)
    (h13 : valAt value 13 = 1)
    (hcomp : (value.length + 242) % 256 = (valAt value 5 + 253) % 256) :
    (decodeStep c dev value).2.completed = some (value.drop 14) ∧
    (decodeStep c dev value).2.nonce = some ((value.drop 14).take 16) ∧
    (decodeStep c dev value).2.remotePub =
      some (((value.drop 14).drop 16).take 48) := by
  rw [decodeStep_remoteData c dev value hlen h0 h4 h9 h10 h11 h12 h13]
  simp only []
  rw [if_pos hcomp]
  refine ⟨rfl, rfl, ?_⟩
  simp [List.drop_drop]

/-- C2 witness: the single-frame message `frame35` completes with its body
split as nonce and public key. -/
theorem C2_witness :
    (decodeStep cryptoTest devInit frame35).2.completed =
      some (frame35.drop 14) ∧
    (decodeStep cryptoTest devInit frame35).2.nonce =
      some ((frame35.drop 14).take 16) ∧
    (decodeStep cryptoTest devInit frame35).2.remotePub =
      some (((frame35.drop 14).drop 16).take 48) :=
  C2_single_frame_body cryptoTest devInit frame35 (by decide) (by decide)
    (by decide) (by decide) (by decide) (by decide) (by decide) (by decide)
    (by decide)

/-- C4: on completion of `frame35` with a shared-secret primitive that
reports failure, the code logs the error (`cryptoError` is set) but still
stores the failed call's output buffer as `secretKey`, derives the session
key from it, and writes the challenge; the handshake is not stopped. -/
theorem C4_ecdh_failure_still_writes :
    (decodeStep cryptoFail devInit frame35).2.cryptoError = true ∧
    ((decodeStep cryptoFail devInit frame35).2.challenge).isSome = true ∧
    (decodeStep cryptoFail devInit frame35).1.secretKey =
      List.replicate 48 0 := by
  decide

/-- C8 counterexample: after the completing step on `frame35` the reassembly
state is not cleared: the byte counter and expected count both remain 32,
carrying into the processing of the next frame. -/
theorem C8_cex :
    ((decodeStep cryptoTest devInit frame35).2.completed).isSome = true ∧
    ¬(decodeStep cryptoTest devInit frame35).1.pointer = 0 ∧
    (decodeStep cryptoTest devInit frame35).1.pointer = 32 ∧
    (decodeStep cryptoTest devInit frame35).1.expectedBytes = 32 := by
  decide

/-- C8 (amended): completion does not clear the reassembly state (the byte
counter stays equal to the stored expected count); the counters are instead
reinitialized whenever a new remote key-exchange first frame arrives, whose
processing is independent of the prior counter values. -/
theorem C8_no_clear_on_completion :
    (∀ (c : Crypto) (dev : BLEDevice) (value : List Nat),
      ((decodeStep c dev value).2.completed).isSome = true →
      (decodeStep c dev value).1.pointer =
        (decodeStep c dev value).1.expectedBytes) ∧
    (∀ (c : Crypto) (dev dev2 : BLEDevice) (value : List Nat),
      dev.handle = dev2.handle → dev.authKey = dev2.authKey →
      dev.privateKey = dev2.privateKey → dev.secretKey = dev2.secretKey →
      1 < value.length → valAt value 0 = 3 → valAt value 4 = 0 →
      valAt value 9 = 0x82 → valAt value 10 = 0 → valAt value 11 = 0x10 →
      valAt value 12 = 4 → valAt value 13 = 1 →
      decodeStep c dev value = decodeStep c dev2 value) := by
  refine ⟨fun c dev value h => decode_completed_eq c dev value h, ?_⟩
  intro c dev dev2 value hh hak hpk hsk hlen h0 h4 h9 h10 h11 h12 h13
  rw [decodeStep_remoteData c dev value hlen h0 h4 h9 h10 h11 h12 h13,
    decodeStep_remoteData c dev2 value hlen h0 h4 h9 h10 h11 h12 h13,
    hh, hak, hpk, hsk]

/-- C8 witness: the completing continuation step on `devMid` keeps
counter = expected, and `frame35` is handled identically from the fresh
state and from a state with stale counters. -/
theorem C8_witness :
    (decodeStep cryptoTest devMid frameB).1.pointer =
      (decodeStep cryptoTest devMid frameB).1.expectedBytes ∧
    decodeStep cryptoTest devInit frame35 =
      decodeStep cryptoTest devStale frame35 :=
  ⟨C8_no_clear_on_completion.1 cryptoTest devMid frameB (by decide),
   C8_no_clear_on_completion.2 cryptoTest devInit devStale frame35 rfl rfl rfl
     rfl (by decide) (by decide) (by decide) (by decide) (by decide)
     (by decide) (by decide) (by decide)⟩

/-- C3: when the remote key-exchange data completes (first-frame case), the
challenge written is the command byte 0x05 followed by the CBC encryption of
the 16-byte remote nonce under the pre-shared key and under the derived
session key, both with an all-zero IV; the session key is the byte-wise XOR
of bytes 8..24 of the ECDH shared secret with the pre-shared key; the
command is 33 bytes and is framed with channel handle one greater than the
previous outbound handle (modulo 256). -/
theorem C3_challenge (c : Crypto) (dev : BLEDevice) (value : List Nat)
    (hlen : 1 < value.length) (h0 : valAt value 0 = 3) (h4 : valAt value 4 = 0)
    (h9 : valAt value 9 = 0x82) (h10 : valAt value 10 = 0)
    (h11 : valAt value 11 = 0x10) (h12 : valAt value 12 = 4)
    (h13 : valAt value 13 = 1)
    (hcomp : (value.length + 242) % 256 = (valAt value 5 + 253) % 256)
    (hcbc : ∀ key input, (c.aesCbc key (List.replicate 16 0) input).length = 16) :
    (decodeStep c dev value).2.challenge =
      some ((dev.handle + 1) % 256,
        0x05 ::
          (c.aesCbc dev.authKey (List.replicate 16 0) ((value.drop 14).take 16) ++
           c.aesCbc
             ((List.range 16).map fun i =>
               Nat.xor
                 (valAt (c.ecdhOut dev.privateKey ((value.drop 30).take 48)) (i + 8))
                 (valAt dev.authKey i))
             (List.replicate 16 0) ((value.drop 14).take 16))) ∧
    ((decodeStep c dev value).2.challenge.map fun p => p.2.length) = some 33 := by
  rw [decodeStep_remoteData c dev value hlen h0 h4 h9 h10 h11 h12 h13]
  simp only []
  rw [if_pos hcomp]
  refine ⟨rfl, ?_⟩
  simp only [encrypt_aes_cbc, Option.map_some', List.length_cons,
    List.length_append, hcbc]

/-- C3 witness: concrete instantiation on `frame35` with the test crypto
primitives. -/
theorem C3_witness :
    (decodeStep cryptoTest devInit frame35).2.challenge =
      some ((devInit.handle + 1) % 256,
        0x05 ::
          (cryptoTest.aesCbc devInit.authKey (List.replicate 16 0)
             ((frame35.drop 14).take 16) ++
           cryptoTest.aesCbc
             ((List.range 16).map fun i =>
               Nat.xor
                 (valAt (cryptoTest.ecdhOut devInit.privateKey
                   ((frame35.drop 30).take 48)) (i + 8))
                 (valAt devInit.authKey i))
             (List.replicate 16 0) ((frame35.drop 14).take 16))) ∧
    ((decodeStep cryptoTest devInit frame35).2.challenge.map
      fun p => p.2.length) = some 33 :=
  C3_challenge cryptoTest devInit frame35 (by decide) (by decide) (by decide)
    (by decide) (by decide) (by decide) (by decide) (by decide) (by decide)
    (fun key input => rfl)

/-- C7: a continuation frame whose index is not the last accepted index plus
one is flagged as an anomaly, but the step does not fail or discard data:
the frame's payload bytes (its length minus the 5-byte header, as a uint8)
are added to the counter, the expected count is untouched, the frame index
is recorded, and the message completes exactly when the counter matches the
expected count, with this frame's payload as the consumed body. -/
theorem C7_gap_tolerated (c : Crypto) (dev : BLEDevice) (value : List Nat)
    (hlen : 1 < value.length) (h0 : valAt value 0 = 3)
    (h4 : 0 < valAt value 4)
    (hgap : valAt value 4 ≠ dev.lastSequenceNumber + 1) :
    (decodeStep c dev value).2.anomaly = true ∧
    (decodeStep c dev value).1.pointer =
      (dev.pointer + (value.length + 251) % 256) % 256 ∧
    (decodeStep c dev value).1.expectedBytes = dev.expectedBytes ∧
    (decodeStep c dev value).1.lastSequenceNumber = valAt value 4 ∧
    (((decodeStep c dev value).2.completed).isSome = true ↔
      (dev.pointer + (value.length + 251) % 256) % 256 = dev.expectedBytes) ∧
    (((decodeStep c dev value).2.completed).isSome = true →
      (decodeStep c dev value).2.completed = some (value.drop 5)) := by
  rw [decodeStep_continuation c dev value hlen h0 h4]
  simp only []
  by_cases hc : (dev.pointer + (value.length + 251) % 256) % 256 =
    dev.expectedBytes
  · rw [if_pos hc]
    simp [hgap, hc]
  · rw [if_neg hc]
    refine ⟨by simp [hgap], rfl, rfl, rfl, ?_, by simp⟩
    simp only [Option.isSome_none, Bool.false_eq_true, false_iff]
    exact hc

/-- C7 witness: from a state that received 16 of 32 bytes with last index 0,
the gapped frame `frameGap` (index 2) is flagged but its 16 payload bytes
complete the message. -/
theorem C7_witness :
    (decodeStep cryptoTest devMid frameGap).2.anomaly = true ∧
    (decodeStep cryptoTest devMid frameGap).1.pointer =
      (devMid.pointer + (frameGap.length + 251) % 256) % 256 ∧
    (decodeStep cryptoTest devMid frameGap).1.expectedBytes =
      devMid.expectedBytes ∧
    (decodeStep cryptoTest devMid frameGap).1.lastSequenceNumber =
      valAt frameGap 4 ∧
    (((decodeStep cryptoTest devMid frameGap).2.completed).isSome = true ↔
      (devMid.pointer + (frameGap.length + 251) % 256) % 256 =
        devMid.expectedBytes) ∧
    (((decodeStep cryptoTest devMid frameGap).2.completed).isSome = true →
      (decodeStep cryptoTest devMid frameGap).2.completed =
        some (frameGap.drop 5)) :=
  C7_gap_tolerated cryptoTest devMid frameGap (by decide) (by decide)
    (by decide) (by decide)

/-- C6: with first-frame capacity `mMTU - 14` (the spec's
`max_frame_payload`, positive whenever `15 ≤ mMTU`): a payload of exactly
that size is one frame whose flag byte is 7 (bit 0 and bits 1-2); one byte
more gives exactly two frames, frame 0 with flag byte 1 (bit 0 only) and the
final frame with flag byte 6 (bits 1-2 only) and a 5-byte header; and the
final continuation frame can carry up to `mMTU - 8 = max_frame_payload + 6`
payload bytes. -/
theorem C6_header_sizing :
    (∀ (mMTU type handle : Nat) (data : List Nat), 15 ≤ mMTU →
      data.length = mMTU - 14 →
      write_chunked_value mMTU type handle data =
        [[0x03, 7, 0, handle % 256, 0, data.length % 256,
          data.length / 256 % 256, data.length / 65536 % 256,
          data.length / 16777216 % 256, type % 256, type % 256 / 256 % 256] ++
          data]) ∧
    (∀ (mMTU type handle : Nat) (data : List Nat), 15 ≤ mMTU →
      data.length = (mMTU - 14) + 1 →
      write_chunked_value mMTU type handle data =
        [[0x03, 1, 0, handle % 256, 0, data.length % 256,
          data.length / 256 % 256, data.length / 65536 % 256,
          data.length / 16777216 % 256, type % 256, type % 256 / 256 % 256] ++
          data.take (mMTU - 14),
         [0x03, 6, 0, handle % 256, 1] ++ data.drop (mMTU - 14)]) ∧
    (∀ (mMTU type handle : Nat) (data : List Nat), 15 ≤ mMTU →
      data.length = (mMTU - 14) + (mMTU - 8) →
      write_chunked_value mMTU type handle data =
        [[0x03, 1, 0, handle % 256, 0, data.length % 256,
          data.length / 256 % 256, data.length / 65536 % 256,
          data.length / 16777216 % 256, type % 256, type % 256 / 256 % 256] ++
          data.take (mMTU - 14),
         [0x03, 6, 0, handle % 256, 1] ++ data.drop (mMTU - 14)] ∧
        (data.drop (mMTU - 14)).length = (mMTU - 14) + 6) := by
  refine ⟨?_, ?_, ?_⟩
  · intro mMTU type handle data h15 hlen
    exact encode_single mMTU type handle data h15 (by omega) (by omega)
  · intro mMTU type handle data h15 hlen
    exact encode_two mMTU type handle data 1 h15 hlen le_rfl (by omega)
  · intro mMTU type handle data h15 hlen
    refine ⟨encode_two mMTU type handle data (mMTU - 8) h15 hlen (by omega)
      le_rfl, ?_⟩
    rw [List.length_drop]
    omega

/-- C6 witness: concrete payload sizes 9, 10 and 24 at `mMTU = 23`. -/
theorem C6_witness :
    write_chunked_value 23 0x82 5 (List.range 9) =
      [[0x03, 7, 0, 5 % 256, 0, (List.range 9).length % 256,
        (List.range 9).length / 256 % 256, (List.range 9).length / 65536 % 256,
        (List.range 9).length / 16777216 % 256, 0x82 % 256,
        0x82 % 256 / 256 % 256] ++ List.range 9] ∧
    write_chunked_value 23 0x82 5 (List.range 10) =
      [[0x03, 1, 0, 5 % 256, 0, (List.range 10).length % 256,
        (List.range 10).length / 256 % 256,
        (List.range 10).length / 65536 % 256,
        (List.range 10).length / 16777216 % 256, 0x82 % 256,
        0x82 % 256 / 256 % 256] ++ (List.range 10).take (23 - 14),
       [0x03, 6, 0, 5 % 256, 1] ++ (List.range 10).drop (23 - 14)] ∧
    (write_chunked_value 23 0x82 5 (List.range 24) =
      [[0x03, 1, 0, 5 % 256, 0, (List.range 24).length % 256,
        (List.range 24).length / 256 % 256,
        (List.range 24).length / 65536 % 256,
        (List.range 24).length / 16777216 % 256, 0x82 % 256,
        0x82 % 256 / 256 % 256] ++ (List.range 24).take (23 - 14),
       [0x03, 6, 0, 5 % 256, 1] ++ (List.range 24).drop (23 - 14)] ∧
      ((List.range 24).drop (23 - 14)).length = (23 - 14) + 6) :=
  ⟨C6_header_sizing.1 23 0x82 5 (List.range 9) (by decide) (by decide),
   C6_header_sizing.2.1 23 0x82 5 (List.range 10) (by decide) (by decide),
   C6_header_sizing.2.2 23 0x82 5 (List.range 24) (by decide) (by decide)⟩

/-- C9: the alert fires exactly when, after appending, the sample count
exceeds 60 and the new value is more than 10 below the arithmetic mean of
all recorded values (the new one included); in particular, after 60 samples
of mean m, recording m - 11 fires the alert and recording m - 9 does not. -/
theorem C9_alert_rule :
    (∀ (s : HRState) (v : ℤ), s.values.length = s.hrCount →
      ((recordHR s v).2 = true ↔
        (60 < s.hrCount + 1 ∧ (v : ℚ) < hr_mean (s.values ++ [v]) - 10))) ∧
    (∀ (m : ℤ) (l : List ℤ), l.length = 60 → (l.sum : ℚ) = 60 * m →
      (recordHR ⟨60, l⟩ (m - 11)).2 = true ∧
      (recordHR ⟨60, l⟩ (m - 9)).2 = false) := by
  constructor
  · intro s v h
    simp [recordHR, hr_mean, h, Bool.and_eq_true, decide_eq_true_eq]
  · intro m l h60 hsum
    constructor
    · simp only [recordHR, Bool.and_eq_true, decide_eq_true_eq]
      refine ⟨by norm_num, ?_⟩
      have e1 : (l ++ [m - 11]).sum = l.sum + (m - 11) := by simp
      have hs1 : ((l ++ [m - 11]).sum : ℚ) = 61 * (m : ℚ) - 11 := by
        rw [e1, Int.cast_add, hsum]
        push_cast
        ring
      rw [hs1]
      push_cast
      rw [lt_sub_iff_add_lt, lt_div_iff₀ (by norm_num : (0 : ℚ) < 61)]
      ring_nf
      linarith
    · rw [Bool.eq_false_iff]
      intro hcontra
      simp only [recordHR, Bool.and_eq_true, decide_eq_true_eq] at hcontra
      obtain ⟨-, h2⟩ := hcontra
      have e2 : (l ++ [m - 9]).sum = l.sum + (m - 9) := by simp
      have hs2 : ((l ++ [m - 9]).sum : ℚ) = 61 * (m : ℚ) - 9 := by
        rw [e2, Int.cast_add, hsum]
        push_cast
        ring
      rw [hs2] at h2
      push_cast at h2
      rw [lt_sub_iff_add_lt, lt_div_iff₀ (by norm_num : (0 : ℚ) < 61)] at h2
      ring_nf at h2
      linarith

/-- C9 witness: after 60 samples of value 80, the 61st sample 69 (mean - 11)
fires the alert and 71 (mean - 9) does not. -/
theorem C9_witness :
    ((recordHR ⟨60, List.replicate 60 80⟩ 69).2 = true ↔
      (60 < 60 + 1 ∧ ((69 : ℤ) : ℚ) <
        hr_mean (List.replicate 60 80 ++ [69]) - 10)) ∧
    ((recordHR ⟨60, List.replicate 60 80⟩ (80 - 11)).2 = true ∧
     (recordHR ⟨60, List.replicate 60 80⟩ (80 - 9)).2 = false) :=
  ⟨C9_alert_rule.1 ⟨60, List.replicate 60 80⟩ 69 (by simp),
   C9_alert_rule.2 80 (List.replicate 60 80) (by simp)
     (by norm_num [List.sum_replicate])⟩

/-- C10: the reassembly counters are uint8 values: on a remote key-exchange
first frame, `expectedBytes` is set from only the low length byte
(`value[5] - 3` modulo 256), the byte counter is the frame contribution
modulo 256, completion compares the two reduced values; and two first frames
that differ only in bytes 6..8 (the high bytes of the 32-bit total_length)
are processed identically. -/
theorem C10_uint8_counters :
    (∀ (c : Crypto) (dev : BLEDevice) (value : List Nat),
      1 < value.length → valAt value 0 = 3 → valAt value 4 = 0 →
      valAt value 9 = 0x82 → valAt value 10 = 0 → valAt value 11 = 0x10 →
      valAt value 12 = 4 → valAt value 13 = 1 →
      (decodeStep c dev value).1.expectedBytes = (valAt value 5 + 253) % 256 ∧
      (decodeStep c dev value).1.pointer = (value.length + 242) % 256 ∧
      (((decodeStep c dev value).2.completed).isSome = true ↔
        (value.length + 242) % 256 = (valAt value 5 + 253) % 256)) ∧
    (∀ (c : Crypto) (dev : BLEDevice) (a : List Nat) (x y z x' y' z' : Nat)
      (b : List Nat), a.length = 6 → valAt a 0 = 3 → valAt a 4 = 0 →
      valAt b 0 = 0x82 → valAt b 1 = 0 → valAt b 2 = 0x10 → valAt b 3 = 4 →
      valAt b 4 = 1 →
      decodeStep c dev (a ++ [x, y, z] ++ b) =
        decodeStep c dev (a ++ [x', y', z'] ++ b)) := by
  constructor
  · intro c dev value hlen h0 h4 h9 h10 h11 h12 h13
    rw [decodeStep_remoteData c dev value hlen h0 h4 h9 h10 h11 h12 h13]
    simp only []
    by_cases hc : (value.length + 242) % 256 = (valAt value 5 + 253) % 256
    · rw [if_pos hc]
      simp [hc]
    · rw [if_neg hc]
      simp [hc]
  · intro c dev a x y z x' y' z' b ha ha0 ha4 hb0 hb1 hb2 hb3 hb4
    have hlow : ∀ (u1 u2 u3 i : Nat), i < 6 →
        valAt (a ++ [u1, u2, u3] ++ b) i = valAt a i := by
      intro u1 u2 u3 i hi
      simp only [valAt]
      rw [List.getD_append _ _ _ _
          (by simp only [List.length_append, List.length_cons,
            List.length_nil, ha]; omega),
        List.getD_append _ _ _ _ (by omega)]
    have hhi : ∀ (u1 u2 u3 i : Nat),
        valAt (a ++ [u1, u2, u3] ++ b) (9 + i) = valAt b i := by
      intro u1 u2 u3 i
      simp only [valAt]
      rw [List.getD_append_right _ _ _ _
          (by simp only [List.length_append, List.length_cons,
            List.length_nil, ha]; omega),
        show 9 + i - (a ++ [u1, u2, u3]).length = i by
          simp only [List.length_append, List.length_cons,
            List.length_nil, ha]; omega]
    have hlen' : ∀ u1 u2 u3 : Nat, 1 < (a ++ [u1, u2, u3] ++ b).length := by
      intro u1 u2 u3
      simp only [List.length_append, List.length_cons, List.length_nil]
      omega
    have hLeq : ∀ u1 u2 u3 : Nat,
        (a ++ [u1, u2, u3] ++ b).length = b.length + 9 := by
      intro u1 u2 u3
      simp only [List.length_append, List.length_cons, List.length_nil, ha]
      omega
    have hd14 : ∀ u1 u2 u3 : Nat,
        (a ++ [u1, u2, u3] ++ b).drop 14 = b.drop 5 := by
      intro u1 u2 u3
      rw [show (14 : Nat) = (a ++ [u1, u2, u3]).length + 5 by simp [ha],
        List.drop_append]
    have hd30 : ∀ u1 u2 u3 : Nat,
        (a ++ [u1, u2, u3] ++ b).drop 30 = b.drop 21 := by
      intro u1 u2 u3
      rw [show (30 : Nat) = (a ++ [u1, u2, u3]).length + 21 by simp [ha],
        List.drop_append]
    have key : ∀ w1 w2 w3 : Nat,
        decodeStep c dev (a ++ [w1, w2, w3] ++ b) =
          decodeStep c dev (a ++ [0, 0, 0] ++ b) := by
      intro w1 w2 w3
      rw [decodeStep_remoteData c dev _ (hlen' w1 w2 w3)
          (by rw [hlow w1 w2 w3 0 (by omega)]; exact ha0)
          (by rw [hlow w1 w2 w3 4 (by omega)]; exact ha4)
          (by rw [show (9 : Nat) = 9 + 0 from rfl, hhi w1 w2 w3 0]; exact hb0)
          (by rw [show (10 : Nat) = 9 + 1 from rfl, hhi w1 w2 w3 1]; exact hb1)
          (by rw [show (11 : Nat) = 9 + 2 from rfl, hhi w1 w2 w3 2]; exact hb2)
          (by rw [show (12 : Nat) = 9 + 3 from rfl, hhi w1 w2 w3 3]; exact hb3)
          (by rw [show (13 : Nat) = 9 + 4 from rfl, hhi w1 w2 w3 4]; exact hb4),
        decodeStep_remoteData c dev _ (hlen' 0 0 0)
          (by rw [hlow 0 0 0 0 (by omega)]; exact ha0)
          (by rw [hlow 0 0 0 4 (by omega)]; exact ha4)
          (by rw [show (9 : Nat) = 9 + 0 from rfl, hhi 0 0 0 0]; exact hb0)
          (by rw [show (10 : Nat) = 9 + 1 from rfl, hhi 0 0 0 1]; exact hb1)
          (by rw [show (11 : Nat) = 9 + 2 from rfl, hhi 0 0 0 2]; exact hb2)
          (by rw [show (12 : Nat) = 9 + 3 from rfl, hhi 0 0 0 3]; exact hb3)
          (by rw [show (13 : Nat) = 9 + 4 from rfl, hhi 0 0 0 4]; exact hb4),
        hLeq w1 w2 w3, hLeq 0 0 0, hd14 w1 w2 w3, hd14 0 0 0,
        hd30 w1 w2 w3, hd30 0 0 0, hlow w1 w2 w3 5 (by omega),
        hlow 0 0 0 5 (by omega)]
    rw [key x y z, key x' y' z']

/-- C10 witness: concrete counter values on `frame35`, and two first frames
whose total_length fields differ only in the high bytes (6..8) are processed
identically. -/
theorem C10_witness :
    ((decodeStep cryptoTest devInit frame35).1.expectedBytes =
      (valAt frame35 5 + 253) % 256 ∧
     (decodeStep cryptoTest devInit frame35).1.pointer =
      (frame35.length + 242) % 256 ∧
     (((decodeStep cryptoTest devInit frame35).2.completed).isSome = true ↔
      (frame35.length + 242) % 256 = (valAt frame35 5 + 253) % 256)) ∧
    decodeStep cryptoTest devInit
      ([3, 1, 0, 0, 0, 35] ++ [0, 0, 0] ++
        ([0x82, 0, 0x10, 4, 1] ++ List.replicate 16 0xAA)) =
    decodeStep cryptoTest devInit
      ([3, 1, 0, 0, 0, 35] ++ [7, 8, 9] ++
        ([0x82, 0, 0x10, 4, 1] ++ List.replicate 16 0xAA)) :=
  ⟨C10_uint8_counters.1 cryptoTest devInit frame35 (by decide) (by decide)
     (by decide) (by decide) (by decide) (by decide) (by decide) (by decide),
   C10_uint8_counters.2 cryptoTest devInit [3, 1, 0, 0, 0, 35] 0 0 0 7 8 9
     ([0x82, 0, 0x10, 4, 1] ++ List.replicate 16 0xAA) (by decide) (by decide)
     (by decide) (by decide) (by decide) (by decide) (by decide) (by decide)⟩

end MiBand
